import Mathlib

/-!
Verification of the reserve-data core against its specification.

Shallow embedding of the relevant parts of the source:
  * `common/types.go` — `ActivityID` (text marshalling) and `ActivityRecord`
    (the three pending predicates);
  * `core/core.go` — `ReserveCore.Deposit` and `ReserveCore.SetRates`, with the
    blockchain adapter and the activity journal made explicit parameters;
  * `http/http.go` — `getTimePoint`, `IsIntime` and `HTTPServer.Authenticated`.

Go strings that undergo character-level processing are modelled as `List Char`;
strings that are only compared for equality stay `String`.  Machine integers
are `Nat`/`Int` with explicit wrap-around where the Go code can overflow
(`int64` subtraction in `IsIntime`).  The heterogeneous `Params`/`Result` maps
of an activity record (`map[string]interface{}` in Go) carry no information
any verified property depends on and are omitted from the record structure.
-/

namespace ReserveData

/-! ### Go `strconv` and `strings` primitives used by the source -/

/-- A decimal digit character, as tested by Go's number parsers. -/
def isDecDigit (c : Char) : Bool :=
  decide ('0' ≤ c ∧ c ≤ '9')

/-- Numeric value of a decimal digit character. -/
def digitVal (c : Char) : Nat :=
  c.toNat - 48

/-- Go `strconv.ParseUint(s, 10, 64)`: no sign prefix, decimal digits only,
error on empty input and on values that do not fit in 64 bits. -/
def parseUint64 (s : List Char) : Option Nat :=
  if s = [] then none
  else if s.all isDecDigit then
    let v := s.foldl (fun acc c => acc * 10 + digitVal c) 0
    if v < 2 ^ 64 then some v else none
  else none

/-- Go `strconv.ParseInt(s, 10, 64)`: optional `+`/`-` sign, decimal digits,
error on empty input and on values outside `[-2^63, 2^63 - 1]`. -/
def parseInt64 (s : List Char) : Option Int :=
  let neg : Bool := s.head? = some '-'
  let ds : List Char := if s.head? = some '-' ∨ s.head? = some '+' then s.tail else s
  if ds = [] then none
  else if ds.all isDecDigit then
    let v : Nat := ds.foldl (fun acc c => acc * 10 + digitVal c) 0
    if neg then
      if v ≤ 2 ^ 63 then some (-(v : Int)) else none
    else
      if v ≤ 2 ^ 63 - 1 then some ((v : Int)) else none
  else none

/-- Character for a single decimal digit value. -/
def digitChar (d : Nat) : Char :=
  Char.ofNat (48 + d)

/-- Go `strconv.FormatUint(n, 10)`: canonical decimal representation,
most significant digit first, no leading zeros, `"0"` for zero. -/
def formatUint (n : Nat) : List Char :=
  if n = 0 then ['0'] else (Nat.digits 10 n).reverse.map digitChar

/-- Go `strings.Split(s, "|")` for the single-character separator `|`. -/
def splitOnBar : List Char → List (List Char)
  | [] => [[]]
  | c :: rest =>
    if c = '|' then [] :: splitOnBar rest
    else
      match splitOnBar rest with
      | [] => [[c]]
      | p :: ps => (c :: p) :: ps

/-- Go `strings.Join(parts, "|")`. -/
def joinBar : List (List Char) → List Char
  | [] => []
  | [p] => p
  | p :: ps => p ++ '|' :: joinBar ps

/-! ### `common.ActivityID` (src/common/types.go) -/

/-- `common.ActivityID`: a millisecond/nanosecond timepoint (`uint64`) plus an
external id string. -/
structure ActivityID where
  timepoint : Nat
  eid : List Char
deriving DecidableEq

/-- `ActivityID.MarshalText`: `fmt.Sprintf("%s|%s", FormatUint(Timepoint, 10), EID)`. -/
def ActivityID.marshalText (a : ActivityID) : List Char :=
  formatUint a.timepoint ++ '|' :: a.eid

/-- `common.StringToActivityID`: split on `|`, require at least two parts,
parse the first part as a `uint64`, rejoin the remainder with `|`.
(`UnmarshalText` delegates to this function.) -/
def stringToActivityID (s : List Char) : Except String ActivityID :=
  match splitOnBar s with
  | [] => .error "Invalid activity id"
  | [_] => .error "Invalid activity id"
  | timeStr :: rest =>
    match parseUint64 timeStr with
    | none => .error "invalid timepoint syntax"
    | some t => .ok ⟨t, joinBar rest⟩

/-! ### `common.ActivityRecord` and its pending predicates -/

/-- `common.ActivityRecord` (the `Params`/`Result` bags are omitted, see the
file header). -/
structure ActivityRecord where
  action : String
  id : ActivityID
  destination : String
  exchangeStatus : String
  miningStatus : String
  timestamp : Nat
deriving DecidableEq

/-- `ActivityRecord.IsExchangePending` — Go `switch` on `Action`, sequential
string comparison, default `true`. -/
def ActivityRecord.isExchangePending (r : ActivityRecord) : Bool :=
  if r.action = "withdraw" then
    decide ((r.exchangeStatus = "" ∨ r.exchangeStatus = "submitted") ∧
      r.miningStatus ≠ "failed")
  else if r.action = "deposit" then
    decide ((r.exchangeStatus = "" ∨ r.exchangeStatus = "pending") ∧
      r.miningStatus ≠ "failed")
  else if r.action = "trade" then
    decide (r.exchangeStatus = "" ∨ r.exchangeStatus = "submitted")
  else true

/-- `ActivityRecord.IsBlockchainPending`. -/
def ActivityRecord.isBlockchainPending (r : ActivityRecord) : Bool :=
  if r.action = "withdraw" ∨ r.action = "deposit" ∨ r.action = "set_rates" then
    decide ((r.miningStatus = "" ∨ r.miningStatus = "submitted") ∧
      r.exchangeStatus ≠ "failed")
  else true

/-- `ActivityRecord.IsPending`. -/
def ActivityRecord.isPending (r : ActivityRecord) : Bool :=
  if r.action = "withdraw" then
    decide ((r.exchangeStatus = "" ∨ r.exchangeStatus = "submitted" ∨
      r.miningStatus = "" ∨ r.miningStatus = "submitted") ∧
      r.miningStatus ≠ "failed" ∧ r.exchangeStatus ≠ "failed")
  else if r.action = "deposit" then
    decide ((r.exchangeStatus = "" ∨ r.exchangeStatus = "pending" ∨
      r.miningStatus = "" ∨ r.miningStatus = "submitted") ∧
      r.miningStatus ≠ "failed" ∧ r.exchangeStatus ≠ "failed")
  else if r.action = "trade" then
    decide ((r.exchangeStatus = "" ∨ r.exchangeStatus = "submitted") ∧
      r.exchangeStatus ≠ "failed")
  else if r.action = "set_rates" then
    decide ((r.miningStatus = "" ∨ r.miningStatus = "submitted") ∧
      r.exchangeStatus ≠ "failed")
  else true

/-! ### `core.ReserveCore` (Deposit and SetRates)

The blockchain adapter calls are modelled by passing the pair the adapter
would return (`tx`, `err`) as an explicit argument, plus a flag in the
outcome recording whether the adapter was actually invoked.  The activity
storage is modelled as a list of records; `Record` appends. -/

/-- `ethereum.Hash{}.Hex()` — the zero transaction hash. -/
def zeroTxHex : String :=
  "0x0000000000000000000000000000000000000000000000000000000000000000"

/-- Outcome of one `ReserveCore.Deposit` call. -/
structure DepositOutcome where
  err : Option String
  sendCalled : Bool
  journal : List ActivityRecord
  uid : ActivityID
deriving DecidableEq

/-- `ReserveCore.Deposit` (src/common/types.go, core section).
`supported` is the second return of `exchange.Address(token)`;
`hasPendingDeposit` is `activityStorage.HasPendingDeposit(token, exchange)`;
`sendResult` is the `(tx, err)` pair `blockchain.Send` would return;
`nowNano` is `time.Now().UnixNano()` used by `timebasedID`. -/
def ReserveCore.deposit (supported hasPendingDeposit : Bool)
    (sendResult : String × Option String)
    (exchangeID tokenID amountStr : String) (timepoint nowNano : Nat)
    (journal : List ActivityRecord) : DepositOutcome :=
  let step : String × Option String × Bool :=
    if !supported then
      (zeroTxHex,
       some ("Exchange " ++ exchangeID ++ " doesn't support token " ++ tokenID),
       false)
    else if hasPendingDeposit then
      (zeroTxHex,
       some ("There is a pending " ++ tokenID ++ " deposit to " ++ exchangeID ++
         " currently, please try again"),
       false)
    else
      (sendResult.1, sendResult.2, true)
  let tx := step.1
  let err := step.2.1
  let sendCalled := step.2.2
  let status := if err.isSome then "failed" else "submitted"
  let uid : ActivityID := ⟨nowNano, (tx ++ "|" ++ tokenID ++ "|" ++ amountStr).data⟩
  { err := err
    sendCalled := sendCalled
    journal := journal ++ [⟨"deposit", uid, exchangeID, "", status, timepoint⟩]
    uid := uid }

/-- Outcome of one `ReserveCore.SetRates` call. -/
structure SetRatesOutcome where
  err : Option String
  chainCalled : Bool
  journal : List ActivityRecord
  uid : ActivityID
deriving DecidableEq

/-- `ReserveCore.SetRates`.  `chainResult` is the `(tx, err)` pair
`blockchain.SetRates` would return; `nowNano` feeds `timebasedID` and
`nowMs` is the `common.GetTimepoint()` recorded as the activity timestamp. -/
def ReserveCore.setRates (tokens : List String) (buys sells : List Int)
    (chainResult : String × Option String) (nowNano nowMs : Nat)
    (journal : List ActivityRecord) : SetRatesOutcome :=
  let lentokens := tokens.length
  let lenbuys := buys.length
  let lensells := sells.length
  let step : String × Option String × Bool :=
    if lentokens ≠ lenbuys ∨ lentokens ≠ lensells then
      (zeroTxHex, some "Tokens, buys and sells must have the same length", false)
    else
      (chainResult.1, chainResult.2, true)
  let tx := step.1
  let err := step.2.1
  let chainCalled := step.2.2
  let status := if err.isSome then "failed" else "submitted"
  let uid : ActivityID := ⟨nowNano, tx.data⟩
  { err := err
    chainCalled := chainCalled
    journal := journal ++ [⟨"set_rates", uid, "blockchain", "", status, nowMs⟩]
    uid := uid }

/-! ### HTTP control plane (src/unnamed/part_004) -/

/-- `http.MAX_TIMESPOT`. -/
def MAX_TIMESPOT : Nat := 18446744073709551615

/-- `http.getTimePoint`: `timestampParam` is the optional `timestamp` query
value (`none` when absent; `c.DefaultQuery` then yields `""`), `now` is
`common.GetTimepoint()`. -/
def getTimePoint (timestampParam : Option String) (useDefault : Bool)
    (now : Nat) : Nat :=
  let timestamp := timestampParam.getD ""
  if timestamp = "" then
    if useDefault then MAX_TIMESPOT else now
  else
    match parseUint64 timestamp.data with
    | none => MAX_TIMESPOT
    | some t => t

/-- The timepoint used by `HTTPServer.AllPrices` (and the other
snapshot-serving handlers `Price`, `AuthData`, `GetRate`), all of which call
`getTimePoint(c, true)`. -/
def allPricesTimePoint (timestampParam : Option String) (now : Nat) : Nat :=
  getTimePoint timestampParam true now

/-- Two's-complement wrap of an integer into `[-2^63, 2^63)` — Go `int64`
arithmetic. -/
def wrap64 (x : Int) : Int :=
  (x + 2 ^ 63) % 2 ^ 64 - 2 ^ 63

/-- Go `int64(u)` for a `uint64` value. -/
def toInt64 (n : Nat) : Int :=
  wrap64 (n : Int)

/-- `http.IsIntime`: parse the nonce as `int64`; the difference from
`int64(serverTime)` is computed in `int64` (wrapping) arithmetic and must lie
in `[-10000, 10000]`. -/
def isIntime (serverTime : Nat) (nonce : String) : Bool :=
  match parseInt64 nonce.data with
  | none => false
  | some nonceInt =>
    let difference := wrap64 (nonceInt - toInt64 serverTime)
    if difference < -10000 ∨ difference > 10000 then false else true

/-- Go `url.Values.Get`: first value for the key, `""` when absent. -/
def formGet (form : List (String × String)) (key : String) : String :=
  match form.find? (fun kv => kv.1 = key) with
  | some kv => kv.2
  | none => ""

/-- Result of `HTTPServer.Authenticated`: either dispatch with the parsed
params, or a `{success:false, reason}` response. -/
inductive AuthResult where
  | ok (params : List (String × String))
  | rejected (reason : String)
deriving DecidableEq

/-- `HTTPServer.Authenticated`.  `knsign` is `self.auth.KNSign` (HMAC-SHA512
under the configured secret) and `encode` is `url.Values.Encode` (URL
encoding with keys in sorted order); both are external to this repository and
passed as opaque functions.  `parseFormError` models `c.Request.ParseForm()`
failing; `form` is the parsed form and `signedHeader` the `signed` header. -/
def authenticated (authEnabled : Bool) (serverTime : Nat)
    (knsign : String → String) (encode : List (String × String) → String)
    (parseFormError : Bool) (form : List (String × String))
    (signedHeader : String) (requiredParams : List String) : AuthResult :=
  if parseFormError then .rejected "Malformed request package"
  else if !authEnabled then .ok form
  else if !(isIntime serverTime (formGet form "nonce")) then
    .rejected "Your nonce is invalid"
  else
    match requiredParams.find? (fun p => formGet form p = "") with
    | some p =>
      .rejected ("Required param (" ++ p ++ ") is missing. Param name is case sensitive")
    | none =>
      if signedHeader = knsign (encode form) then .ok form
      else .rejected "Invalid signed token"

/-! ### Decimal formatting and parsing lemmas -/

theorem digitChar_isDecDigit {d : Nat} (h : d < 10) :
    isDecDigit (digitChar d) = true := by
  interval_cases d <;> decide

theorem digitVal_digitChar {d : Nat} (h : d < 10) :
    digitVal (digitChar d) = d := by
  interval_cases d <;> decide

theorem digitChar_ne_bar {d : Nat} (h : d < 10) : digitChar d ≠ '|' := by
  interval_cases d <;> decide

theorem foldl_digits_reverse (L : List Nat) (a : Nat) :
    L.reverse.foldl (fun acc d => acc * 10 + d) a =
      a * 10 ^ L.length + Nat.ofDigits 10 L := by
  induction L generalizing a with
  | nil => simp
  | cons d L ih =>
    rw [List.reverse_cons, List.foldl_append, ih]
    simp only [List.foldl_cons, List.foldl_nil, Nat.ofDigits_cons, List.length_cons]
    ring

theorem foldl_digitVal_map (L : List Nat) (hL : ∀ d ∈ L, d < 10) (a : Nat) :
    (L.map digitChar).foldl (fun acc c => acc * 10 + digitVal c) a =
      L.foldl (fun acc d => acc * 10 + d) a := by
  induction L generalizing a with
  | nil => rfl
  | cons d L ih =>
    simp only [List.map_cons, List.foldl_cons]
    rw [digitVal_digitChar (hL d (by simp))]
    exact ih (fun x hx => hL x (by simp [hx])) _

theorem formatUint_ne_nil (n : Nat) : formatUint n ≠ [] := by
  by_cases h0 : n = 0
  · subst h0; decide
  · simp [formatUint, h0, Nat.digits_ne_nil_iff_ne_zero]

theorem formatUint_all_digits (n : Nat) :
    (formatUint n).all isDecDigit = true := by
  by_cases h0 : n = 0
  · subst h0; decide
  · simp only [formatUint, if_neg h0, List.all_eq_true]
    intro c hc
    obtain ⟨d, hd, rfl⟩ := List.mem_map.mp hc
    exact digitChar_isDecDigit (Nat.digits_lt_base (by norm_num) (List.mem_reverse.mp hd))

theorem formatUint_foldl (n : Nat) :
    (formatUint n).foldl (fun acc c => acc * 10 + digitVal c) 0 = n := by
  by_cases h0 : n = 0
  · subst h0; decide
  · rw [formatUint, if_neg h0,
      foldl_digitVal_map _
        (fun d hd => Nat.digits_lt_base (by norm_num) (List.mem_reverse.mp hd)),
      foldl_digits_reverse]
    simp [Nat.ofDigits_digits]

theorem parseUint64_formatUint {n : Nat} (h : n < 2 ^ 64) :
    parseUint64 (formatUint n) = some n := by
  simp only [parseUint64, if_neg (formatUint_ne_nil n),
    if_pos (formatUint_all_digits n), formatUint_foldl]
  rw [if_pos h]

theorem bar_not_mem_formatUint (n : Nat) : '|' ∉ formatUint n := by
  by_cases h0 : n = 0
  · subst h0; decide
  · simp only [formatUint, if_neg h0]
    intro hmem
    obtain ⟨d, hd, hEq⟩ := List.mem_map.mp hmem
    exact digitChar_ne_bar (Nat.digits_lt_base (by norm_num) (List.mem_reverse.mp hd)) hEq

/-! ### Split and join lemmas -/

theorem splitOnBar_ne_nil (s : List Char) : splitOnBar s ≠ [] := by
  cases s with
  | nil => simp [splitOnBar]
  | cons c rest =>
    simp only [splitOnBar]
    split
    · simp
    · split <;> simp

theorem joinBar_splitOnBar (s : List Char) : joinBar (splitOnBar s) = s := by
  induction s with
  | nil => rfl
  | cons c rest ih =>
    rcases hL : splitOnBar rest with _ | ⟨p, ps⟩
    · exact absurd hL (splitOnBar_ne_nil rest)
    · rw [hL] at ih
      by_cases hc : c = '|'
      · subst hc
        simp only [splitOnBar, if_pos rfl, hL]
        cases ps with
        | nil => simpa [joinBar] using ih
        | cons q qs => simpa [joinBar] using ih
      · simp only [splitOnBar, if_neg hc, hL]
        cases ps with
        | nil =>
          simp only [joinBar] at ih ⊢
          rw [ih]
        | cons q qs =>
          simp only [joinBar, List.cons_append] at ih ⊢
          rw [ih]

theorem splitOnBar_append_bar (x t : List Char) (hx : '|' ∉ x) :
    splitOnBar (x ++ '|' :: t) = x :: splitOnBar t := by
  induction x with
  | nil => simp [splitOnBar]
  | cons c xs ih =>
    have hc : c ≠ '|' := by
      intro h
      exact hx (by simp [h])
    have hxs : '|' ∉ xs := fun h => hx (List.mem_cons_of_mem c h)
    simp only [List.cons_append, splitOnBar, if_neg hc, List.append_eq, ih hxs]

theorem splitOnBar_no_bar (x : List Char) (hx : '|' ∉ x) : splitOnBar x = [x] := by
  induction x with
  | nil => rfl
  | cons c xs ih =>
    have hc : c ≠ '|' := by
      intro h
      exact hx (by simp [h])
    have hxs : '|' ∉ xs := fun h => hx (List.mem_cons_of_mem c h)
    simp only [splitOnBar, if_neg hc, ih hxs]

/-! ### ActivityID serialization lemmas -/

theorem stringToActivityID_wellformed (t : Nat) (eid : List Char) (h : t < 2 ^ 64) :
    stringToActivityID (formatUint t ++ '|' :: eid) = .ok ⟨t, eid⟩ := by
  have hsplit : splitOnBar (formatUint t ++ '|' :: eid) = formatUint t :: splitOnBar eid :=
    splitOnBar_append_bar _ _ (bar_not_mem_formatUint t)
  have hjoin : joinBar (splitOnBar eid) = eid := joinBar_splitOnBar eid
  rcases hE : splitOnBar eid with _ | ⟨p, ps⟩
  · exact absurd hE (splitOnBar_ne_nil eid)
  · rw [hE] at hsplit hjoin
    simp only [stringToActivityID, hsplit, parseUint64_formatUint h, hjoin]

theorem stringToActivityID_no_separator (s : List Char) (hs : '|' ∉ s) :
    stringToActivityID s = .error "Invalid activity id" := by
  simp only [stringToActivityID, splitOnBar_no_bar s hs]

theorem stringToActivityID_bad_timepoint (head rest : List Char) (hh : '|' ∉ head)
    (hp : parseUint64 head = none) :
    stringToActivityID (head ++ '|' :: rest) = .error "invalid timepoint syntax" := by
  have hsplit : splitOnBar (head ++ '|' :: rest) = head :: splitOnBar rest :=
    splitOnBar_append_bar _ _ hh
  rcases hE : splitOnBar rest with _ | ⟨p, ps⟩
  · exact absurd hE (splitOnBar_ne_nil rest)
  · rw [hE] at hsplit
    simp only [stringToActivityID, hsplit, hp]

/-! ### ParseInt lemmas -/

theorem parseInt64_bounds {s : List Char} {v : Int} (h : parseInt64 s = some v) :
    -(2 : Int) ^ 63 ≤ v ∧ v ≤ 2 ^ 63 - 1 := by
  simp only [parseInt64] at h
  split_ifs at h
  all_goals simp only [Option.some.injEq] at h
  all_goals (subst h; omega)

theorem formatUint_head_not_sign (n : Nat) :
    ¬((formatUint n).head? = some '-') ∧ ¬((formatUint n).head? = some '+') := by
  rcases hfe : formatUint n with _ | ⟨c, cs⟩
  · exact absurd hfe (formatUint_ne_nil n)
  · have hc : isDecDigit c = true := by
      have hall := formatUint_all_digits n
      rw [hfe] at hall
      simp only [List.all_cons, Bool.and_eq_true] at hall
      exact hall.1
    constructor <;> intro hcon <;> simp only [List.head?_cons, Option.some.injEq] at hcon <;>
      subst hcon <;> simp [isDecDigit] at hc

theorem parseInt64_formatUint {n : Nat} (h : n ≤ 2 ^ 63 - 1) :
    parseInt64 (formatUint n) = some (n : Int) := by
  obtain ⟨hm, hp⟩ := formatUint_head_not_sign n
  simp only [parseInt64, if_neg (not_or.mpr ⟨hm, hp⟩), decide_eq_false hm,
    if_neg (formatUint_ne_nil n), if_pos (formatUint_all_digits n), formatUint_foldl,
    Bool.false_eq_true, if_false, if_pos h]

/-! ### Status-algebra helper for the pending predicates -/

theorem pending_decomp (es ms sub : String) (hsub : sub ≠ "failed") :
    ((es = "" ∨ es = sub ∨ ms = "" ∨ ms = "submitted") ∧ ms ≠ "failed" ∧ es ≠ "failed")
      ↔ (((es = "" ∨ es = sub) ∧ ms ≠ "failed") ∨
         ((ms = "" ∨ ms = "submitted") ∧ es ≠ "failed")) := by
  constructor
  · rintro ⟨h1, h2, h3⟩
    rcases h1 with h | h | h | h
    · exact Or.inl ⟨Or.inl h, h2⟩
    · exact Or.inl ⟨Or.inr h, h2⟩
    · exact Or.inr ⟨Or.inl h, h3⟩
    · exact Or.inr ⟨Or.inr h, h3⟩
  · rintro (⟨h1, h2⟩ | ⟨h1, h2⟩)
    · refine ⟨?_, h2, ?_⟩
      · tauto
      · rcases h1 with h | h
        · simp [h]
        · rw [h]; exact hsub
    · refine ⟨?_, ?_, h2⟩
      · tauto
      · rcases h1 with h | h <;> simp [h]

/-! ### Claim theorems -/

/-- C2 counterexample: a trade activity with exchange status `done` is not
pending, yet the disjunction of the two derived predicates still holds,
because `IsBlockchainPending` is vacuously `true` for trades.  So `IsPending`
is not equivalent to `IsExchangePending ∨ IsBlockchainPending`, and a
non-pending trade is never "terminal" in the both-predicates-false sense. -/
theorem isPending_disjunction_counterexample :
    ActivityRecord.isPending ⟨"trade", ⟨0, []⟩, "binance", "done", "", 0⟩ = false ∧
    (ActivityRecord.isExchangePending ⟨"trade", ⟨0, []⟩, "binance", "done", "", 0⟩ ||
      ActivityRecord.isBlockchainPending ⟨"trade", ⟨0, []⟩, "binance", "done", "", 0⟩)
      = true := by
  decide

/-- C2 (amended): `IsPending` implies `IsExchangePending ∨ IsBlockchainPending`,
and the two sides are equivalent for every action other than `trade` and
`set_rates`; for a `trade` record `IsPending` is equivalent to
`IsExchangePending` alone (with `IsBlockchainPending` vacuously true), and for
a `set_rates` record to `IsBlockchainPending` alone (with `IsExchangePending`
vacuously true). -/
theorem isPending_characterization (r : ActivityRecord) :
    (r.isPending = true →
      (r.isExchangePending = true ∨ r.isBlockchainPending = true)) ∧
    (r.action ≠ "trade" → r.action ≠ "set_rates" →
      (r.isPending = true ↔
        (r.isExchangePending = true ∨ r.isBlockchainPending = true))) ∧
    (r.action = "trade" → (r.isPending = true ↔ r.isExchangePending = true)) ∧
    (r.action = "set_rates" → (r.isPending = true ↔ r.isBlockchainPending = true)) := by
  obtain ⟨a, aid, dst, es, ms, ts⟩ := r
  have e1 : es = "" → ¬es = "failed" := fun h => by simp [h]
  have e2 : es = "submitted" → ¬es = "failed" := fun h => by simp [h]
  have e3 : es = "pending" → ¬es = "failed" := fun h => by simp [h]
  have m1 : ms = "" → ¬ms = "failed" := fun h => by simp [h]
  have m2 : ms = "submitted" → ¬ms = "failed" := fun h => by simp [h]
  by_cases hw : a = "withdraw"
  · subst hw
    have key := pending_decomp es ms "submitted" (by simp)
    simp [ActivityRecord.isPending, ActivityRecord.isExchangePending,
      ActivityRecord.isBlockchainPending, key]
  · by_cases hd : a = "deposit"
    · subst hd
      have key := pending_decomp es ms "pending" (by simp)
      simp [ActivityRecord.isPending, ActivityRecord.isExchangePending,
        ActivityRecord.isBlockchainPending, key]
    · by_cases ht : a = "trade"
      · subst ht
        simp only [ActivityRecord.isPending, ActivityRecord.isExchangePending,
          ActivityRecord.isBlockchainPending]
        simp
        tauto
      · by_cases hs : a = "set_rates"
        · subst hs
          simp only [ActivityRecord.isPending, ActivityRecord.isExchangePending,
            ActivityRecord.isBlockchainPending]
          simp
        · simp [ActivityRecord.isPending, ActivityRecord.isExchangePending,
            ActivityRecord.isBlockchainPending, hw, hd, ht, hs]

/-- C2 witness: the amended equivalence evaluated on a concrete withdraw
record that is pending on both sides. -/
theorem isPending_characterization_witness :
    ActivityRecord.isPending ⟨"withdraw", ⟨0, []⟩, "binance", "", "", 0⟩ = true :=
  ((isPending_characterization ⟨"withdraw", ⟨0, []⟩, "binance", "", "", 0⟩).2.1
    (by decide) (by decide)).mpr (Or.inl (by decide))

/-- C3 counterexample: for a trade activity the code's `IsExchangePending`
ignores the mining status, so a trade with `exchange_status = "submitted"` and
`mining_status = "failed"` is still exchange-pending, contradicting the
claimed formula `exchange_status ∈ {"", "submitted"} ∧ mining_status ≠ "failed"`. -/
theorem isExchangePending_trade_counterexample :
    ActivityRecord.isExchangePending
      ⟨"trade", ⟨0, []⟩, "binance", "submitted", "failed", 0⟩ = true ∧
    ¬((("submitted" : String) = "" ∨ ("submitted" : String) = "submitted") ∧
      ("failed" : String) ≠ "failed") := by
  decide

/-- C3 (amended): `IsExchangePending` holds for a withdraw record iff
`exchange_status ∈ {"", "submitted"}` and `mining_status ≠ "failed"`; for a
trade record iff `exchange_status ∈ {"", "submitted"}` (the mining status is
not consulted); and for a deposit record iff
`exchange_status ∈ {"", "pending"}` and `mining_status ≠ "failed"`. -/
theorem isExchangePending_characterization (r : ActivityRecord) :
    (r.action = "withdraw" →
      (r.isExchangePending = true ↔
        ((r.exchangeStatus = "" ∨ r.exchangeStatus = "submitted") ∧
          r.miningStatus ≠ "failed"))) ∧
    (r.action = "trade" →
      (r.isExchangePending = true ↔
        (r.exchangeStatus = "" ∨ r.exchangeStatus = "submitted"))) ∧
    (r.action = "deposit" →
      (r.isExchangePending = true ↔
        ((r.exchangeStatus = "" ∨ r.exchangeStatus = "pending") ∧
          r.miningStatus ≠ "failed"))) := by
  obtain ⟨a, aid, dst, es, ms, ts⟩ := r
  by_cases hw : a = "withdraw"
  · subst hw
    simp [ActivityRecord.isExchangePending]
  · by_cases hd : a = "deposit"
    · subst hd
      simp [ActivityRecord.isExchangePending]
    · by_cases ht : a = "trade"
      · subst ht
        simp [ActivityRecord.isExchangePending]
      · simp [hw, hd, ht]

/-- C3 witness: the amended trade clause evaluated on a concrete record whose
mining status is `failed` but which is still exchange-pending. -/
theorem isExchangePending_characterization_witness :
    ActivityRecord.isExchangePending
      ⟨"trade", ⟨0, []⟩, "binance", "submitted", "failed", 0⟩ = true :=
  ((isExchangePending_characterization
      ⟨"trade", ⟨0, []⟩, "binance", "submitted", "failed", 0⟩).2.1 rfl).mpr
    (Or.inr rfl)

/-- C10: a record whose action is none of `trade`, `deposit`, `withdraw`,
`set_rates` falls through the default branch of all three `switch`
statements, so all three predicates are `true` whatever the status fields
hold, and such a record can never become terminal. -/
theorem unknown_action_always_pending (r : ActivityRecord)
    (h1 : r.action ≠ "trade") (h2 : r.action ≠ "deposit")
    (h3 : r.action ≠ "withdraw") (h4 : r.action ≠ "set_rates") :
    r.isPending = true ∧ r.isExchangePending = true ∧
      r.isBlockchainPending = true := by
  obtain ⟨a, aid, dst, es, ms, ts⟩ := r
  simp only at h1 h2 h3 h4
  simp [ActivityRecord.isPending, ActivityRecord.isExchangePending,
    ActivityRecord.isBlockchainPending, h1, h2, h3, h4]

/-- C10 witness: a `cancel_order` record with terminal-looking statuses is
still reported pending by all three predicates. -/
theorem unknown_action_always_pending_witness :
    ActivityRecord.isPending ⟨"cancel_order", ⟨0, []⟩, "binance", "done", "failed", 0⟩
        = true ∧
    ActivityRecord.isExchangePending
        ⟨"cancel_order", ⟨0, []⟩, "binance", "done", "failed", 0⟩ = true ∧
    ActivityRecord.isBlockchainPending
        ⟨"cancel_order", ⟨0, []⟩, "binance", "done", "failed", 0⟩ = true :=
  unknown_action_always_pending _ (by decide) (by decide) (by decide) (by decide)

/-- C1 counterexample: with a pending deposit present, `Deposit` does return
an error and does not call `blockchain.Send`, but the call is not free of side
effects — `activityStorage.Record` is invoked unconditionally, so the
activity journal grows by one (failed) record. -/
theorem deposit_pending_conflict_counterexample :
    (ReserveCore.deposit true true ("0xabc", none) "binance" "ETH" "1.5"
        100 999 []).err.isSome = true ∧
    (ReserveCore.deposit true true ("0xabc", none) "binance" "ETH" "1.5"
        100 999 []).sendCalled = false ∧
    (ReserveCore.deposit true true ("0xabc", none) "binance" "ETH" "1.5"
        100 999 []).journal ≠ [] := by
  decide

/-- C1 (amended): whenever `HasPendingDeposit` reports true at the time of the
call, `Deposit` returns an error and `blockchain.Send` is not called, but the
activity journal is not unchanged: a `deposit` activity record with
`exchange_status = ""` and `mining_status = "failed"` is appended. -/
theorem deposit_pending_conflict (supported : Bool)
    (sendResult : String × Option String)
    (exchangeID tokenID amountStr : String) (timepoint nowNano : Nat)
    (journal : List ActivityRecord) :
    let out := ReserveCore.deposit supported true sendResult exchangeID tokenID
      amountStr timepoint nowNano journal
    out.err.isSome = true ∧ out.sendCalled = false ∧
    out.journal =
      journal ++ [⟨"deposit", out.uid, exchangeID, "", "failed", timepoint⟩] := by
  cases supported <;> simp [ReserveCore.deposit]

/-- C5: `SetRates` rejects mismatched lengths before touching the chain —
the error is returned and `blockchain.SetRates` is not called; with matching
lengths the chain is called and a `set_rates` activity is recorded with
destination `"blockchain"`, `exchange_status = ""` and `mining_status`
`"submitted"` on chain success or `"failed"` on chain error. -/
theorem setRates_length_check (tokens : List String) (buys sells : List Int)
    (chainResult : String × Option String) (nowNano nowMs : Nat)
    (journal : List ActivityRecord) :
    let out := ReserveCore.setRates tokens buys sells chainResult nowNano nowMs
      journal
    (tokens.length ≠ buys.length ∨ tokens.length ≠ sells.length →
      out.err.isSome = true ∧ out.chainCalled = false) ∧
    (tokens.length = buys.length → tokens.length = sells.length →
      out.chainCalled = true ∧ out.err = chainResult.2 ∧
      out.journal = journal ++ [⟨"set_rates", out.uid, "blockchain", "",
        (if chainResult.2.isSome then "failed" else "submitted"), nowMs⟩]) := by
  constructor
  · intro h
    simp [ReserveCore.setRates, if_pos h]
  · intro h1 h2
    have h3 : buys.length = sells.length := by rw [← h1, h2]
    simp [ReserveCore.setRates, h1, h2, h3]

/-- C5 witness: the length-mismatch branch on `tokens=[KNC,OMG]`, `buys=[1]`,
`sells=[1,2]`, and the success branch on matching singleton lists. -/
theorem setRates_length_check_witness :
    ((ReserveCore.setRates ["KNC", "OMG"] [1] [1, 2] ("0x1", none) 7 8
        []).err.isSome = true ∧
      (ReserveCore.setRates ["KNC", "OMG"] [1] [1, 2] ("0x1", none) 7 8
        []).chainCalled = false) ∧
    (ReserveCore.setRates ["KNC"] [1] [2] ("0x1", none) 7 8 []).chainCalled
      = true :=
  ⟨(setRates_length_check ["KNC", "OMG"] [1] [1, 2] ("0x1", none) 7 8 []).1
      (Or.inl (by decide)),
   ((setRates_length_check ["KNC"] [1] [2] ("0x1", none) 7 8 []).2
      (by decide) (by decide)).1⟩

/-- C4: serializing an `ActivityID` and parsing the result is the identity,
even when the external id contains `|` (only the first `|` separates the
timepoint); parsing a well-formed string (the decimal representation of a
`uint64`, then `|`, then any remainder) and re-serializing gives the string
back; and malformed input — no `|` separator, or a first component that does
not parse as a `uint64` — makes parsing return an error. -/
theorem activityID_roundtrip :
    (∀ (t : Nat) (eid : List Char), t < 2 ^ 64 →
      stringToActivityID (ActivityID.marshalText ⟨t, eid⟩) = .ok ⟨t, eid⟩) ∧
    (∀ (t : Nat) (rest : List Char), t < 2 ^ 64 →
      ∃ a, stringToActivityID (formatUint t ++ '|' :: rest) = .ok a ∧
        a.marshalText = formatUint t ++ '|' :: rest) ∧
    (∀ s : List Char, '|' ∉ s →
      stringToActivityID s = .error "Invalid activity id") ∧
    (∀ head rest : List Char, '|' ∉ head → parseUint64 head = none →
      stringToActivityID (head ++ '|' :: rest)
        = .error "invalid timepoint syntax") := by
  refine ⟨?_, ?_, stringToActivityID_no_separator, stringToActivityID_bad_timepoint⟩
  · intro t eid h
    exact stringToActivityID_wellformed t eid h
  · intro t rest h
    exact ⟨⟨t, rest⟩, stringToActivityID_wellformed t rest h, rfl⟩

/-- C4 witness: the round trip on the spec's own example
`(1700000000000, "0xabc|tail")`, and the error on separator-free input. -/
theorem activityID_roundtrip_witness :
    1700000000000 < 2 ^ 64 ∧
    stringToActivityID
        (ActivityID.marshalText ⟨1700000000000, "0xabc|tail".data⟩) =
      .ok ⟨1700000000000, "0xabc|tail".data⟩ ∧
    stringToActivityID "noseparator".data = .error "Invalid activity id" :=
  ⟨by norm_num,
   activityID_roundtrip.1 1700000000000 "0xabc|tail".data (by norm_num),
   activityID_roundtrip.2.2.1 "noseparator".data (by decide)⟩

/-- C9: with authentication disabled the gate returns success for every
request right after form parsing — nonce, required parameters and signature
are never inspected, so even a request missing every required parameter is
dispatched to the handler. -/
theorem authenticated_disabled_bypass (serverTime : Nat)
    (knsign : String → String) (encode : List (String × String) → String)
    (form : List (String × String)) (signedHeader : String)
    (requiredParams : List String) :
    authenticated false serverTime knsign encode false form signedHeader
      requiredParams = .ok form := by
  simp [authenticated]

/-- C6 counterexample: a request whose signature mismatches but which also
misses a required parameter is rejected with the missing-parameter reason,
not with "Invalid signed token" — the signature is only compared after the
nonce and required-parameter checks pass. -/
theorem authenticated_mismatch_counterexample :
    authenticated true 1700000000000 (fun _ => "SIG") (fun _ => "MSG") false
        [("nonce", "1700000000000")] "WRONG" ["token"] =
      .rejected "Required param (token) is missing. Param name is case sensitive" ∧
    ("WRONG" : String) ≠ "SIG" ∧
    AuthResult.rejected
        "Required param (token) is missing. Param name is case sensitive" ≠
      AuthResult.rejected "Invalid signed token" := by
  decide

/-- C6 (amended): with authentication enabled (and the form parsed), the gate
dispatches iff the nonce is in-time, every required parameter is non-empty,
and the `signed` header equals `KNSign` of the encoded form; a signature
mismatch on a request that passes the nonce and required-parameter checks is
rejected with reason "Invalid signed token" (a mismatching request that fails
an earlier check reports that check's reason instead). -/
theorem authenticated_gate (st : Nat) (knsign : String → String)
    (encode : List (String × String) → String) (form : List (String × String))
    (signed : String) (required : List String) :
    (authenticated true st knsign encode false form signed required = .ok form ↔
      (isIntime st (formGet form "nonce") = true ∧
        (∀ p ∈ required, formGet form p ≠ "") ∧
        signed = knsign (encode form))) ∧
    (isIntime st (formGet form "nonce") = true →
      (∀ p ∈ required, formGet form p ≠ "") →
      signed ≠ knsign (encode form) →
      authenticated true st knsign encode false form signed required =
        .rejected "Invalid signed token") := by
  cases hI : isIntime st (formGet form "nonce") with
  | false =>
    simp [authenticated, hI]
  | true =>
    cases hF : required.find? (fun p => formGet form p = "") with
    | some p =>
      have hmem : p ∈ required := List.mem_of_find?_eq_some hF
      have hempty : formGet form p = "" := by
        have := List.find?_some hF
        simpa using this
      have hval : authenticated true st knsign encode false form signed required =
          .rejected ("Required param (" ++ p ++
            ") is missing. Param name is case sensitive") := by
        simp [authenticated, hI, hF]
      constructor
      · rw [hval]
        constructor
        · intro hcon
          exact absurd hcon (by simp)
        · rintro ⟨-, hall, -⟩
          exact absurd hempty (hall p hmem)
      · rintro - hall -
        exact absurd hempty (hall p hmem)
    | none =>
      have hall : ∀ q ∈ required, formGet form q ≠ "" := by
        intro q hq
        have := List.find?_eq_none.mp hF q hq
        simpa using this
      by_cases hS : signed = knsign (encode form)
      · have hval : authenticated true st knsign encode false form signed required =
            .ok form := by
          simp [authenticated, hI, hF, hS]
        constructor
        · rw [hval]
          exact ⟨fun _ => ⟨rfl, hall, hS⟩, fun _ => rfl⟩
        · rintro - - hcon
          exact absurd hS hcon
      · have hval : authenticated true st knsign encode false form signed required =
            .rejected "Invalid signed token" := by
          simp [authenticated, hI, hF, hS]
        constructor
        · rw [hval]
          constructor
          · intro hcon
            exact absurd hcon (by simp)
          · rintro ⟨-, -, hcon⟩
            exact absurd hcon hS
        · rintro - - -
          exact hval

/-- C6 witness: a correctly signed request with an in-time nonce and all
required parameters present is dispatched with the parsed form. -/
theorem authenticated_gate_witness :
    authenticated true 1700000000000 (fun _ => "SIG") (fun _ => "MSG") false
        [("nonce", "1700000000000"), ("token", "ETH")] "SIG" ["token"] =
      .ok [("nonce", "1700000000000"), ("token", "ETH")] :=
  (authenticated_gate 1700000000000 (fun _ => "SIG") (fun _ => "MSG")
      [("nonce", "1700000000000"), ("token", "ETH")] "SIG" ["token"]).1.mpr
    ⟨by decide, by decide, rfl⟩

/-- C7 counterexample: `IsIntime` computes the nonce/server-time difference in
wrapping 64-bit arithmetic, so at server time `2^64 - 1` the nonce `"4999"`
is accepted although its mathematical distance from the server time is far
outside the ±10000 ms window. -/
theorem isIntime_wraparound_counterexample :
    isIntime 18446744073709551615 "4999" = true ∧
    ¬(-(10000 : Int) ≤ 4999 - 18446744073709551615 ∧
      (4999 : Int) - 18446744073709551615 ≤ 10000) := by
  constructor
  · decide
  · norm_num

/-- C7 (amended): for every server time below `2^63 - 10000` (every physically
realistic time), `IsIntime` accepts exactly the nonces that parse as a signed
64-bit integer whose difference from the server time lies in the inclusive
window `[-10000, 10000]`; in particular a nonce 15000 ms behind the server
time is rejected and one 5000 ms behind is accepted; and with authentication
enabled a rejected nonce produces the response reason "Your nonce is
invalid".  (In general the difference is computed in wrapping two's-complement
64-bit arithmetic, see the counterexample.) -/
theorem isIntime_window (st : Nat) (hst : st < 2 ^ 63 - 10000) :
    (∀ nonce : String,
      (isIntime st nonce = true ↔
        ∃ v : Int, parseInt64 nonce.data = some v ∧
          -(10000 : Int) ≤ v - st ∧ v - st ≤ 10000)) ∧
    (∀ nonce : String, parseInt64 nonce.data = some ((st : Int) - 15000) →
      isIntime st nonce = false) ∧
    (∀ nonce : String, parseInt64 nonce.data = some ((st : Int) - 5000) →
      isIntime st nonce = true) ∧
    (∀ (knsign : String → String) (encode : List (String × String) → String)
        (form : List (String × String)) (signed : String)
        (required : List String),
      isIntime st (formGet form "nonce") = false →
      authenticated true st knsign encode false form signed required =
        .rejected "Your nonce is invalid") := by
  refine ⟨?_, ?_, ?_, ?_⟩
  · intro nonce
    cases hp : parseInt64 nonce.data with
    | none => simp [isIntime, hp]
    | some v =>
      obtain ⟨hlo, hhi⟩ := parseInt64_bounds hp
      simp only [isIntime, hp]
      constructor
      · intro h
        by_cases hc : wrap64 (v - toInt64 st) < -10000 ∨ wrap64 (v - toInt64 st) > 10000
        · rw [if_pos hc] at h
          exact absurd h (by simp)
        · refine ⟨v, rfl, ?_, ?_⟩ <;>
            (simp only [wrap64, toInt64] at hc; omega)
      · rintro ⟨w, hw, h1, h2⟩
        obtain rfl : v = w := by simpa using hw
        have hc : ¬(wrap64 (v - toInt64 st) < -10000 ∨
            wrap64 (v - toInt64 st) > 10000) := by
          simp only [wrap64, toInt64]
          omega
        rw [if_neg hc]
  · intro nonce hp
    simp only [isIntime, hp]
    have hc : wrap64 (((st : Int) - 15000) - toInt64 st) < -10000 ∨
        wrap64 (((st : Int) - 15000) - toInt64 st) > 10000 := by
      simp only [wrap64, toInt64]
      omega
    rw [if_pos hc]
  · intro nonce hp
    simp only [isIntime, hp]
    have hc : ¬(wrap64 (((st : Int) - 5000) - toInt64 st) < -10000 ∨
        wrap64 (((st : Int) - 5000) - toInt64 st) > 10000) := by
      simp only [wrap64, toInt64]
      omega
    rw [if_neg hc]
  · intro knsign encode form signed required hI
    simp [authenticated, hI]

/-- C7 witness: at server time 1700000000000 the nonce 5000 ms behind is
accepted. -/
theorem isIntime_window_witness :
    (1700000000000 : Nat) < 2 ^ 63 - 10000 ∧
    isIntime 1700000000000 "1699999995000" = true :=
  ⟨by norm_num,
   ((isIntime_window 1700000000000 (by norm_num)).1 "1699999995000").mpr
     ⟨1699999995000, by decide, by decide, by decide⟩⟩

/-- C8 counterexample: the snapshot-serving handlers (`AllPrices`, `Price`,
`AuthData`, `GetRate`) call `getTimePoint(c, true)`, so an absent `timestamp`
parameter yields the sentinel `MAX_TIMESPOT` ("latest"), not the current
server time. -/
theorem getTimePoint_absent_counterexample :
    allPricesTimePoint none 1700000000000 = MAX_TIMESPOT ∧
    allPricesTimePoint none 1700000000000 ≠ 1700000000000 := by
  decide

/-- C8 (amended): for the snapshot-serving endpoints an absent `timestamp`
parameter yields the sentinel `MAX_TIMESPOT` (meaning "latest"); a present
but unparsable value also yields `MAX_TIMESPOT`; a value that parses as a
`uint64` is used as the serving timepoint.  The current server time is used
for an absent parameter only by the handlers that pass `useDefault = false`
(the command endpoints). -/
theorem getTimePoint_characterization (now : Nat) :
    allPricesTimePoint none now = MAX_TIMESPOT ∧
    getTimePoint none false now = now ∧
    (∀ s : String, s ≠ "" → parseUint64 s.data = none →
      allPricesTimePoint (some s) now = MAX_TIMESPOT) ∧
    (∀ (s : String) (t : Nat) (useDefault : Bool), parseUint64 s.data = some t →
      getTimePoint (some s) useDefault now = t) := by
  refine ⟨rfl, rfl, ?_, ?_⟩
  · intro s hs hp
    simp [allPricesTimePoint, getTimePoint, hs, hp]
  · intro s t u hp
    have hs : ¬s = "" := by
      intro h
      subst h
      simp [parseUint64] at hp
    simp [getTimePoint, hs, hp]

/-- C8 witness: an unparsable timestamp maps to `MAX_TIMESPOT` and a parsable
one to its value. -/
theorem getTimePoint_characterization_witness :
    allPricesTimePoint (some "123x") 5 = MAX_TIMESPOT ∧
    getTimePoint (some "777") true 5 = 777 :=
  ⟨(getTimePoint_characterization 5).2.2.1 "123x" (by decide) (by decide),
   (getTimePoint_characterization 5).2.2.2 "777" 777 true (by decide)⟩

end ReserveData
